import Mathlib

/-!
Shallow embedding of the core of the nym repository: the directory-presence
wire model and its conversions (src/common/clients/directory-client/src/presence.rs),
the health-check result engine (src/common/healthcheck/src/result.rs), and the
provider ledger and error classification (src/sfw-provider/src/provider/mod.rs).

External effects are parameters of the embedding:
  - DNS resolution (ToSocketAddrs) is a function resolve : String → List SocketAddr;
    an io error from to_socket_addrs is modelled as the empty list (both collapse
    to a conversion failure at every use site in the source).
  - SocketAddr parsing (str::parse) is a function parse : String → Option SocketAddr.
  - base64 URL-safe encoding is a function b64url : List Nat → String.
A Rust panic (assert! or unwrap on None) is modelled as an error value
(Option.none or an explicit panic constructor).
-/

namespace Nym

/-- A resolved socket address, identified by its rendered (Display) string form. -/
structure SocketAddr where
  render : String
deriving DecidableEq

instance : Inhabited SocketAddr := ⟨⟨""⟩⟩

namespace Wire

/-- Wire record CocoPresence from presence.rs. -/
structure CocoPresence where
  host : String
  pub_key : String
  last_seen : Nat
  version : String
deriving DecidableEq

/-- Wire record MixNodePresence from presence.rs; host is an unresolved string. -/
structure MixNodePresence where
  host : String
  pub_key : String
  layer : Nat
  last_seen : Nat
  version : String
deriving DecidableEq

/-- Wire record MixProviderClient from presence.rs. -/
structure MixProviderClient where
  pub_key : String
deriving DecidableEq

/-- Wire record MixProviderPresence from presence.rs; listener addresses are strings. -/
structure MixProviderPresence where
  client_listener : String
  mixnet_listener : String
  pub_key : String
  registered_clients : List MixProviderClient
  last_seen : Nat
  version : String
deriving DecidableEq

/-- Wire-level Topology from presence.rs: three ordered sequences of presence records. -/
structure Topology where
  coco_nodes : List CocoPresence
  mix_nodes : List MixNodePresence
  mix_provider_nodes : List MixProviderPresence
deriving DecidableEq

end Wire

namespace Model

/-- Model node topology::CocoNode; field shape fixed by the conversions in presence.rs. -/
structure CocoNode where
  host : String
  pub_key : String
  last_seen : Nat
  version : String
deriving DecidableEq

/-- Model node topology::MixNode; host is a resolved socket address. -/
structure MixNode where
  host : SocketAddr
  pub_key : String
  layer : Nat
  last_seen : Nat
  version : String
deriving DecidableEq

/-- Model record topology::MixProviderClient. -/
structure MixProviderClient where
  pub_key : String
deriving DecidableEq

/-- Model node topology::MixProviderNode; listener addresses are resolved socket addresses. -/
structure MixProviderNode where
  client_listener : SocketAddr
  mixnet_listener : SocketAddr
  pub_key : String
  registered_clients : List MixProviderClient
  last_seen : Nat
  version : String
deriving DecidableEq

end Model

/-- Conversion impl Into of topology CocoNode for CocoPresence: copies every field. -/
def cocoPresenceInto (c : Wire.CocoPresence) : Model.CocoNode :=
  { host := c.host, pub_key := c.pub_key, last_seen := c.last_seen, version := c.version }

/-- Conversion impl From of CocoNode for CocoPresence: copies every field. -/
def cocoPresenceFrom (c : Model.CocoNode) : Wire.CocoPresence :=
  { host := c.host, pub_key := c.pub_key, last_seen := c.last_seen, version := c.version }

/-- Conversion impl TryInto of topology MixNode for MixNodePresence: resolves the host
string via to_socket_addrs and takes the first resulting address; errors (modelled as
the empty resolution list) yield none. All other fields are copied. -/
def mixNodePresenceTryInto (resolve : String → List SocketAddr)
    (p : Wire.MixNodePresence) : Option Model.MixNode :=
  match resolve p.host with
  | [] => none
  | a :: _ =>
    some { host := a, pub_key := p.pub_key, layer := p.layer,
           last_seen := p.last_seen, version := p.version }

/-- Conversion impl From of MixNode for MixNodePresence: renders the resolved host
address back to its string form (host.to_string()), copies the other fields. -/
def mixNodePresenceFrom (m : Model.MixNode) : Wire.MixNodePresence :=
  { host := m.host.render, pub_key := m.pub_key, layer := m.layer,
    last_seen := m.last_seen, version := m.version }

/-- Conversion impl Into of topology MixProviderClient for the wire record. -/
def mixProviderClientInto (c : Wire.MixProviderClient) : Model.MixProviderClient :=
  { pub_key := c.pub_key }

/-- Conversion impl From of topology MixProviderClient back to the wire record. -/
def mixProviderClientFrom (c : Model.MixProviderClient) : Wire.MixProviderClient :=
  { pub_key := c.pub_key }

/-- Conversion impl Into of topology MixProviderNode for MixProviderPresence: parses
both listener strings with str::parse().unwrap(); an unparseable listener is a panic,
modelled as none. -/
def mixProviderPresenceInto (parse : String → Option SocketAddr)
    (p : Wire.MixProviderPresence) : Option Model.MixProviderNode :=
  match parse p.client_listener with
  | none => none
  | some c =>
    match parse p.mixnet_listener with
    | none => none
    | some m =>
      some { client_listener := c, mixnet_listener := m, pub_key := p.pub_key,
             registered_clients := p.registered_clients.map mixProviderClientInto,
             last_seen := p.last_seen, version := p.version }

/-- Conversion impl From of MixProviderNode for MixProviderPresence: renders both
listener addresses to strings, copies the other fields. -/
def mixProviderPresenceFrom (n : Model.MixProviderNode) : Wire.MixProviderPresence :=
  { client_listener := n.client_listener.render,
    mixnet_listener := n.mixnet_listener.render,
    pub_key := n.pub_key,
    registered_clients := n.registered_clients.map mixProviderClientFrom,
    last_seen := n.last_seen, version := n.version }

/-- NymTopology::new_from_nodes for the wire Topology: rebuilds the wire value from
model nodes through the From conversions (argument order as in the source:
mix nodes, provider nodes, coco nodes). -/
def Topology.newFromNodes (mixes : List Model.MixNode)
    (provs : List Model.MixProviderNode) (cocos : List Model.CocoNode) : Wire.Topology :=
  { coco_nodes := cocos.map cocoPresenceFrom,
    mix_nodes := mixes.map mixNodePresenceFrom,
    mix_provider_nodes := provs.map mixProviderPresenceFrom }

/-- Accessor get_mix_nodes: converts each wire record with try_into and silently
drops the failures (filter_map over ok()). -/
def Topology.getMixNodes (resolve : String → List SocketAddr)
    (t : Wire.Topology) : List Model.MixNode :=
  t.mix_nodes.filterMap (mixNodePresenceTryInto resolve)

/-- Helper for get_mix_provider_nodes: maps the panicking Into conversion over the
list; the first unparseable entry aborts the whole accessor (none = panic). -/
def intoProviderList (parse : String → Option SocketAddr) :
    List Wire.MixProviderPresence → Option (List Model.MixProviderNode)
  | [] => some []
  | p :: rest =>
    match mixProviderPresenceInto parse p with
    | none => none
    | some n => (intoProviderList parse rest).map (fun l => n :: l)

/-- Accessor get_mix_provider_nodes: map(into).collect(); panics (none) on the first
presence record whose listener string does not parse. -/
def Topology.getMixProviderNodes (parse : String → Option SocketAddr)
    (t : Wire.Topology) : Option (List Model.MixProviderNode) :=
  intoProviderList parse t.mix_provider_nodes

/-- Accessor get_coco_nodes: total conversion of every record. -/
def Topology.getCocoNodes (t : Wire.Topology) : List Model.CocoNode :=
  t.coco_nodes.map cocoPresenceInto

/-- Modelled from the spec: the crate healthcheck::score (NodeScore) is not under src/.
Spec section 3: one NodeScore per mix/provider, with pub_key_bytes, sent and received
counters. NodeAddressBytes (the decoded 32-byte id) is modelled by the base64 key
string itself, since from_b64_string decoding is injective on valid keys and every
use in src compares keys for equality only. Counters are u32 in the source; the runs
stated here stay far below 2^32, so they are modelled as Nat. -/
structure NodeScore where
  pub_key : String
  sent : Nat
  received : Nat
deriving DecidableEq

/-- Modelled from the spec: derived score is received / sent when sent is positive,
else 0 (spec section 3). mkRat is the exact rational value of that quotient. -/
def NodeScore.score (s : NodeScore) : ℚ :=
  if s.sent = 0 then 0 else mkRat s.received s.sent

/-- Modelled from the spec: NodeScore::from_mixnode starts a mix node at 0 sent, 0 received. -/
def NodeScore.fromMixnode (m : Model.MixNode) : NodeScore :=
  { pub_key := m.pub_key, sent := 0, received := 0 }

/-- Modelled from the spec: NodeScore::from_provider starts a provider at 0 sent, 0 received. -/
def NodeScore.fromProvider (p : Model.MixProviderNode) : NodeScore :=
  { pub_key := p.pub_key, sent := 0, received := 0 }

/-- Modelled from the spec: increase_sent_packet_count adds one to sent. -/
def NodeScore.increaseSent (s : NodeScore) : NodeScore :=
  { s with sent := s.sent + 1 }

/-- Modelled from the spec: increase_received_packet_count adds one to received. -/
def NodeScore.increaseReceived (s : NodeScore) : NodeScore :=
  { s with received := s.received + 1 }

/-- HealthCheckResult::node_score from result.rs: linear search of the score vector
by public key, returning the derived score when found. -/
def nodeScore (r : List NodeScore) (key : String) : Option ℚ :=
  (r.find? (fun s => s.pub_key == key)).map NodeScore.score

/-- The filter closure of filter_topology_by_score from result.rs: a node passes when
its key is in the score vector and its score is strictly above the threshold; an
absent key is logged and dropped. Scores are finite f64 values and the threshold may
be plus infinity, modelled by WithTop of the rationals. -/
def scoreCheck (r : List NodeScore) (threshold : WithTop ℚ) (key : String) : Bool :=
  match nodeScore r key with
  | none => false
  | some s => decide (threshold < (s : WithTop ℚ))

/-- HealthCheckResult::filter_topology_by_score from result.rs: filter the mix and
provider accessor outputs by the score predicate, carry coco nodes through, and
rebuild with new_from_nodes. The provider accessor can panic (none). -/
def filterTopologyByScore (resolve : String → List SocketAddr)
    (parse : String → Option SocketAddr) (r : List NodeScore) (t : Wire.Topology)
    (threshold : WithTop ℚ) : Option Wire.Topology :=
  match Topology.getMixProviderNodes parse t with
  | none => none
  | some provs =>
    some (Topology.newFromNodes
      ((Topology.getMixNodes resolve t).filter (fun n => scoreCheck r threshold n.pub_key))
      (provs.filter (fun n => scoreCheck r threshold n.pub_key))
      (Topology.getCocoNodes t))

/-- The score vector built by HealthCheckResult::zero_score from result.rs: one
zeroed entry per mix accessor output followed by one per provider accessor output. -/
def zeroScoreList (mixes : List Model.MixNode) (provs : List Model.MixProviderNode) :
    List NodeScore :=
  mixes.map NodeScore.fromMixnode ++ provs.map NodeScore.fromProvider

/-- HealthCheckResult::zero_score from result.rs; none is the provider-accessor panic. -/
def zeroScore (resolve : String → List SocketAddr) (parse : String → Option SocketAddr)
    (t : Wire.Topology) : Option (List NodeScore) :=
  (Topology.getMixProviderNodes parse t).map
    (fun provs => zeroScoreList (Topology.getMixNodes resolve t) provs)

/-- Modelled from the spec: NymTopology::all_paths lives in the topology crate, which
is not under src/. Spec section 4.1: enumerate every route (layer1 mix, layer2 mix,
layer3 mix, provider) as a Cartesian product across layers, in the insertion order of
the underlying sequences, failing with InsufficientNodes when any layer or the
provider set is empty. A path is represented by the list of its hop key strings,
which is all that result.rs reads from it. -/
def allPathsFrom (mixes : List Model.MixNode) (provs : List Model.MixProviderNode) :
    Except Unit (List (List String)) :=
  let layer1 := mixes.filter (fun m => m.layer == 1)
  let layer2 := mixes.filter (fun m => m.layer == 2)
  let layer3 := mixes.filter (fun m => m.layer == 3)
  if layer1.isEmpty || layer2.isEmpty || layer3.isEmpty || provs.isEmpty then
    Except.error ()
  else
    Except.ok (layer1.flatMap (fun a => layer2.flatMap (fun b => layer3.flatMap (fun c =>
      provs.map (fun p => [a.pub_key, b.pub_key, c.pub_key, p.pub_key])))))

/-- Modelled from the spec: PathChecker path statuses (path_check.rs is not under src/). -/
inductive PathStatus
  | healthy
  | unresolved
  | malformed
deriving DecidableEq

/-- Modelled from the spec: the status a tested (path, iteration) pair ends with.
A send error at the ingress socket classifies the path Malformed immediately; a
successful send becomes Healthy when its tagged payload is recovered during
resolve_pending_checks, else Unresolved. The send outcome and the delivery outcome
are environment parameters. -/
def statusOf (sendOk delivered : List String → Nat → Bool)
    (p : List String) (i : Nat) : PathStatus :=
  if sendOk p i then
    (if delivered p i then PathStatus.healthy else PathStatus.unresolved)
  else PathStatus.malformed

/-- Modelled from the spec: PathChecker::get_all_statuses, one entry per tested
(path, iteration) pair over the whole run. -/
def allStatuses (sendOk delivered : List String → Nat → Bool)
    (paths : List (List String)) (iterations : Nat) :
    List ((List String × Nat) × PathStatus) :=
  (List.range iterations).flatMap
    (fun i => paths.map (fun p => ((p, i), statusOf sendOk delivered p i)))

/-- The score_map HashMap of calculate, modelled as an association list keyed by the
node key; only per-key lookups and counts are meaningful, since HashMap iteration
order is arbitrary. -/
def mapInsert (m : List (String × NodeScore)) (k : String) (v : NodeScore) :
    List (String × NodeScore) :=
  match m with
  | [] => [(k, v)]
  | (k0, v0) :: rest =>
    if k0 == k then (k0, v) :: rest else (k0, v0) :: mapInsert rest k v

/-- score_map.get_mut(key).unwrap() followed by increase_sent_packet_count; a missing
key is an unwrap panic, modelled as none. -/
def bumpSent : List (String × NodeScore) → String → Option (List (String × NodeScore))
  | [], _ => none
  | (k0, v0) :: rest, k =>
    if k0 == k then some ((k0, v0.increaseSent) :: rest)
    else (bumpSent rest k).map (fun m => (k0, v0) :: m)

/-- score_map.get_mut(key).unwrap() followed by increase_received_packet_count. -/
def bumpReceived : List (String × NodeScore) → String → Option (List (String × NodeScore))
  | [], _ => none
  | (k0, v0) :: rest, k =>
    if k0 == k then some ((k0, v0.increaseReceived) :: rest)
    else (bumpReceived rest k).map (fun m => (k0, v0) :: m)

/-- The inner loop of calculate: after send_test_packet, increase the sent count of
every node on the path. Note the source does this unconditionally, whatever the
outcome of the send. -/
def bumpSentPath : List (String × NodeScore) → List String →
    Option (List (String × NodeScore))
  | m, [] => some m
  | m, k :: ks => (bumpSent m k).bind (fun m2 => bumpSentPath m2 ks)

/-- One healthcheck iteration of calculate: every path is sent once and its nodes
get their sent counts increased. -/
def sendIteration : List (String × NodeScore) → List (List String) →
    Option (List (String × NodeScore))
  | m, [] => some m
  | m, p :: ps => (bumpSentPath m p).bind (fun m2 => sendIteration m2 ps)

/-- The full send loop of calculate: iterations many passes over all paths. The
update applied to the score map is identical in every pass, so the pass index is
not consumed. -/
def sendPhase : List (String × NodeScore) → List (List String) → Nat →
    Option (List (String × NodeScore))
  | m, _, 0 => some m
  | m, ps, Nat.succ n => (sendIteration m ps).bind (fun m2 => sendPhase m2 ps n)

/-- The inner loop of the resolution phase of calculate: increase the received count
of every node on a Healthy path. -/
def bumpReceivedPath : List (String × NodeScore) → List String →
    Option (List (String × NodeScore))
  | m, [] => some m
  | m, k :: ks => (bumpReceived m k).bind (fun m2 => bumpReceivedPath m2 ks)

/-- The resolution loop of calculate: for every status entry whose status is Healthy,
increase the received count of every node on that path. -/
def receivePhase : List (String × NodeScore) →
    List ((List String × Nat) × PathStatus) → Option (List (String × NodeScore))
  | m, [] => some m
  | m, ((p, _), st) :: rest =>
    if st = PathStatus.healthy then
      (bumpReceivedPath m p).bind (fun m2 => receivePhase m2 rest)
    else receivePhase m rest

/-- The initial score_map of calculate: one zeroed entry per mix accessor output,
then one per provider accessor output. -/
def initialScoreMap (mixes : List Model.MixNode) (provs : List Model.MixProviderNode) :
    List (String × NodeScore) :=
  provs.foldl (fun m p => mapInsert m p.pub_key (NodeScore.fromProvider p))
    (mixes.foldl (fun m n => mapInsert m n.pub_key (NodeScore.fromMixnode n)) [])

/-- The two ways calculate can abort: the assert on the iteration bound, and an
unwrap on a missing value (panicking provider conversion or missing map key). -/
inductive CalcPanic
  | assertionFailed
  | unwrapPanic
deriving DecidableEq

/-- HealthCheckResult::calculate from result.rs. Checks the iterations bound
(assert, a hard failure), enumerates all paths (returning the zero score on error),
builds the score map, runs the send loop (increasing sent for every node of every
path in every iteration), then credits received to every node of every Healthy path.
The resolution_timeout sleep has no effect on the returned scores and is omitted. -/
def calculate (resolve : String → List SocketAddr) (parse : String → Option SocketAddr)
    (sendOk delivered : List String → Nat → Bool) (t : Wire.Topology)
    (iterations : Nat) : Except CalcPanic (List NodeScore) :=
  if 255 < iterations then Except.error CalcPanic.assertionFailed
  else
    match Topology.getMixProviderNodes parse t with
    | none => Except.error CalcPanic.unwrapPanic
    | some provs =>
      match allPathsFrom (Topology.getMixNodes resolve t) provs with
      | Except.error _ => Except.ok (zeroScoreList (Topology.getMixNodes resolve t) provs)
      | Except.ok paths =>
        match sendPhase (initialScoreMap (Topology.getMixNodes resolve t) provs)
            paths iterations with
        | none => Except.error CalcPanic.unwrapPanic
        | some m1 =>
          match receivePhase m1 (allStatuses sendOk delivered paths iterations) with
          | none => Except.error CalcPanic.unwrapPanic
          | some m2 => Except.ok (m2.map Prod.snd)

/-- ClientLedger from provider/mod.rs: a HashMap from AuthToken to
DestinationAddressBytes, modelled as an association list with HashMap insert
semantics. AuthToken (from the sfw-provider-requests crate, not under src/) is an
opaque equality-comparable credential, modelled as a string; destination address
bytes are a list of byte values. -/
abbrev ClientLedger := List (String × List Nat)

/-- ClientLedger::has_token: key membership. -/
def hasToken (led : ClientLedger) (tok : String) : Bool :=
  (led : List (String × List Nat)).any (fun e => e.1 == tok)

/-- ClientLedger::insert_token: HashMap::insert — replace the value and return the
old one when the token is present, else add a new entry and return none. -/
def insertToken : ClientLedger → String → List Nat → ClientLedger × Option (List Nat)
  | [], tok, dst => ([(tok, dst)], none)
  | (t0, d0) :: rest, tok, dst =>
    if t0 == tok then ((t0, dst) :: rest, some d0)
    else
      let r := insertToken rest tok dst
      ((t0, d0) :: r.1, r.2)

/-- ClientLedger::current_clients: one MixProviderClient per ledger entry, whose
pub_key is the base64 URL-safe encoding of the destination address bytes. The
encoder is the external base64 crate, a parameter of the embedding. -/
def currentClients (b64url : List Nat → String) (led : ClientLedger) :
    List Wire.MixProviderClient :=
  (led : List (String × List Nat)).map (fun e => { pub_key := b64url e.2 })

/-- The io::ErrorKind values distinguished by provider/mod.rs; every other kind is
collapsed into otherKind, matching the catch-all arm. -/
inductive IoErrorKind
  | connectionRefused
  | connectionReset
  | connectionAborted
  | notConnected
  | addrInUse
  | addrNotAvailable
  | unexpectedEof
  | otherKind
deriving DecidableEq

/-- ProviderError from provider/mod.rs. -/
inductive ProviderError
  | tcpListenerBindingError
  | tcpListenerConnectionError
  | tcpListenerUnexpectedEof
  | tcpListenerUnknownError
deriving DecidableEq

/-- The impl From of io::Error for ProviderError in provider/mod.rs, as a function
of the error kind. -/
def providerErrorOfKind : IoErrorKind → ProviderError
  | IoErrorKind.connectionRefused => ProviderError.tcpListenerConnectionError
  | IoErrorKind.connectionReset => ProviderError.tcpListenerConnectionError
  | IoErrorKind.connectionAborted => ProviderError.tcpListenerConnectionError
  | IoErrorKind.notConnected => ProviderError.tcpListenerConnectionError
  | IoErrorKind.addrInUse => ProviderError.tcpListenerBindingError
  | IoErrorKind.addrNotAvailable => ProviderError.tcpListenerBindingError
  | IoErrorKind.unexpectedEof => ProviderError.tcpListenerUnexpectedEof
  | IoErrorKind.otherKind => ProviderError.tcpListenerUnknownError

/-- Claim-side view used to characterise get_mix_nodes: the total conversion applied
to a wire record that is known to resolve (first resolved address, other fields
copied). -/
def specResolvedView (resolve : String → List SocketAddr)
    (p : Wire.MixNodePresence) : Model.MixNode :=
  { host := (resolve p.host).headI, pub_key := p.pub_key, layer := p.layer,
    last_seen := p.last_seen, version := p.version }

/-- Test-scenario helper: fold insert_token over a list of (token, destination)
registrations, starting from the given ledger. -/
def insertAll (led : ClientLedger) (entries : List (String × List Nat)) : ClientLedger :=
  entries.foldl (fun l e => (insertToken l e.1 e.2).1) led

/-- Concrete resolver for witnesses: every host string resolves to the single
address rendered by that same string. -/
def resolve0 : String → List SocketAddr := fun s => [⟨s⟩]

/-- Concrete resolver for witnesses: no host string resolves. -/
def resolveNone : String → List SocketAddr := fun _ => []

/-- Concrete address parser for witnesses: every listener string parses. -/
def parse0 : String → Option SocketAddr := fun s => some ⟨s⟩

/-- Concrete address parser for witnesses: no listener string parses. -/
def parseNone : String → Option SocketAddr := fun _ => none

/-- Concrete send outcome for witnesses: every ingress send succeeds. -/
def alwaysOk : List String → Nat → Bool := fun _ _ => true

/-- Concrete send outcome for witnesses: every ingress send fails. -/
def neverOk : List String → Nat → Bool := fun _ _ => false

/-- Concrete layer-1 mix presence for witnesses. -/
def mixA : Wire.MixNodePresence :=
  { host := "1.1.1.1:1789", pub_key := "A", layer := 1, last_seen := 10, version := "0.1" }

/-- Concrete layer-2 mix presence for witnesses. -/
def mixB : Wire.MixNodePresence :=
  { host := "2.2.2.2:1789", pub_key := "B", layer := 2, last_seen := 20, version := "0.1" }

/-- Concrete layer-3 mix presence for witnesses. -/
def mixC : Wire.MixNodePresence :=
  { host := "3.3.3.3:1789", pub_key := "C", layer := 3, last_seen := 30, version := "0.1" }

/-- Concrete provider presence for witnesses. -/
def provP : Wire.MixProviderPresence :=
  { client_listener := "4.4.4.4:9000", mixnet_listener := "4.4.4.4:1789",
    pub_key := "P", registered_clients := [], last_seen := 40, version := "0.1" }

/-- Concrete coco presence for witnesses. -/
def cocoN : Wire.CocoPresence :=
  { host := "5.5.5.5:443", pub_key := "N", last_seen := 50, version := "0.1" }

/-- Concrete full topology for witnesses: one mix per layer, one provider, one coco. -/
def topoFull : Wire.Topology :=
  { coco_nodes := [cocoN], mix_nodes := [mixA, mixB, mixC], mix_provider_nodes := [provP] }

/-- Concrete topology with an empty layer 2 for witnesses: all_paths fails on it. -/
def topoNoLayer2 : Wire.Topology :=
  { coco_nodes := [cocoN], mix_nodes := [mixA, mixC], mix_provider_nodes := [provP] }

/-- The model node mixA converts to under resolve0, for witnesses. -/
def mixAModel : Model.MixNode :=
  { host := ⟨"1.1.1.1:1789"⟩, pub_key := "A", layer := 1, last_seen := 10,
    version := "0.1" }

/-- The model node mixC converts to under resolve0, for witnesses. -/
def mixCModel : Model.MixNode :=
  { host := ⟨"3.3.3.3:1789"⟩, pub_key := "C", layer := 3, last_seen := 30,
    version := "0.1" }

/-- The model node provP converts to under parse0, for witnesses. -/
def provPModel : Model.MixProviderNode :=
  { client_listener := ⟨"4.4.4.4:9000"⟩, mixnet_listener := ⟨"4.4.4.4:1789"⟩,
    pub_key := "P", registered_clients := [], last_seen := 40, version := "0.1" }

/-- Concrete score vector for witnesses: A at 3/10, C at 8/10, no entry for B or P. -/
def scores0 : List NodeScore := [⟨"A", 10, 3⟩, ⟨"C", 10, 8⟩]

/-- Concrete registration list with pairwise-distinct tokens, for witnesses. -/
def entries0 : List (String × List Nat) := [("t1", [1]), ("t2", [2, 3])]

/-- Concrete byte-list encoder standing in for the external base64 url-safe encoder
in witnesses. -/
def byteCode : List Nat → String := fun l => toString l

/-- The (key, sent) projection of a score map: what the amended C4 statement says
the resolution phase leaves unchanged. -/
def sentProj (m : List (String × NodeScore)) : List (String × Nat) :=
  m.map (fun e => (e.2.pub_key, e.2.sent))

theorem coco_roundtrip (c : Wire.CocoPresence) :
    cocoPresenceFrom (cocoPresenceInto c) = c := rfl

theorem cocoList_roundtrip (l : List Wire.CocoPresence) :
    (l.map cocoPresenceInto).map cocoPresenceFrom = l := by
  induction l with
  | nil => rfl
  | cons c rest ih => simp [ih, coco_roundtrip]

/-- C5: for every wire presence record that converts successfully, wire → model →
wire preserves every field exactly, except that the MixNode host string is replaced
by the rendered (normalised) form of the address resolved from the originally
supplied host string; in particular pub_key, layer, last_seen and version of a
MixNodePresence, and every field of a CocoPresence, round-trip unchanged. -/
theorem presence_roundtrip_fields :
    (∀ c : Wire.CocoPresence, cocoPresenceFrom (cocoPresenceInto c) = c) ∧
    (∀ (resolve : String → List SocketAddr) (p : Wire.MixNodePresence) (m : Model.MixNode),
      mixNodePresenceTryInto resolve p = some m →
      mixNodePresenceFrom m = { p with host := m.host.render } ∧
      m.host ∈ resolve p.host ∧
      (mixNodePresenceFrom m).pub_key = p.pub_key ∧
      (mixNodePresenceFrom m).layer = p.layer ∧
      (mixNodePresenceFrom m).last_seen = p.last_seen ∧
      (mixNodePresenceFrom m).version = p.version) := by
  constructor
  · intro c; rfl
  · intro resolve p m h
    unfold mixNodePresenceTryInto at h
    cases hr : resolve p.host with
    | nil => rw [hr] at h; exact absurd h (by simp)
    | cons a rest =>
      rw [hr] at h
      have h2 := Option.some.inj h
      subst h2
      refine ⟨rfl, ?_, rfl, rfl, rfl, rfl⟩
      exact List.mem_cons_self a rest

/-- C5 witness: the round-trip equalities at a concrete resolver and record. -/
theorem presence_roundtrip_fields_witness :
    mixNodePresenceFrom mixAModel = { mixA with host := mixAModel.host.render } ∧
    cocoPresenceFrom (cocoPresenceInto cocoN) = cocoN :=
  ⟨(presence_roundtrip_fields.2 resolve0 mixA mixAModel (by rfl)).1,
   presence_roundtrip_fields.1 cocoN⟩

/-- C6: converting a wire MixNodePresence to a model MixNode fails exactly when
name resolution of the host string yields no socket address; on success the model
host is one of the resolved addresses and all other fields are copied unchanged. -/
theorem mixnode_conversion_fails_iff_unresolvable
    (resolve : String → List SocketAddr) (p : Wire.MixNodePresence) :
    (mixNodePresenceTryInto resolve p = none ↔ resolve p.host = []) ∧
    ∀ m : Model.MixNode, mixNodePresenceTryInto resolve p = some m →
      m.host ∈ resolve p.host ∧ m.pub_key = p.pub_key ∧ m.layer = p.layer ∧
      m.last_seen = p.last_seen ∧ m.version = p.version := by
  unfold mixNodePresenceTryInto
  cases hr : resolve p.host with
  | nil => simp
  | cons a rest =>
    constructor
    · simp
    · intro m h
      have h2 := Option.some.inj h
      subst h2
      exact ⟨List.mem_cons_self a rest, rfl, rfl, rfl, rfl⟩

/-- C6 witness: at a concrete resolver, a record with an unresolvable host fails
and one with a resolvable host succeeds with the fields copied. -/
theorem mixnode_conversion_fails_iff_unresolvable_witness :
    (mixNodePresenceTryInto resolveNone mixA = none ↔ resolveNone mixA.host = []) ∧
    (mixNodePresenceTryInto resolve0 mixA = none ↔ resolve0 mixA.host = []) :=
  ⟨(mixnode_conversion_fails_iff_unresolvable resolveNone mixA).1,
   (mixnode_conversion_fails_iff_unresolvable resolve0 mixA).1⟩

/-- C7: get_mix_nodes returns exactly the wire entries whose host resolves, in
their original order, converted to model form; unresolvable entries are silently
dropped. The accessor is a pure function of the wire Topology value (it takes the
record by shared reference and clones entries), so the wire value, dropped entries
included, is unchanged. -/
theorem get_mix_nodes_resolvable_only (resolve : String → List SocketAddr)
    (t : Wire.Topology) :
    Topology.getMixNodes resolve t =
      (t.mix_nodes.filter (fun p => !(resolve p.host).isEmpty)).map
        (specResolvedView resolve) := by
  unfold Topology.getMixNodes
  generalize t.mix_nodes = l
  induction l with
  | nil => rfl
  | cons p rest ih =>
    cases hr : resolve p.host with
    | nil =>
      simp only [List.filterMap_cons, List.filter_cons, mixNodePresenceTryInto, hr,
        List.isEmpty_nil, Bool.not_true, if_neg]
      simpa using ih
    | cons a as =>
      simp only [List.filterMap_cons, List.filter_cons, mixNodePresenceTryInto, hr,
        List.isEmpty_cons, Bool.not_false, if_pos, List.map_cons]
      refine congrArg₂ List.cons ?_ (by simpa using ih)
      simp [specResolvedView, hr]

/-- C10: the provider-node accessor and the MixProviderPresence conversion are
partial: a presence record with an unparseable listener string makes the Into
conversion panic (unwrap on a failed parse), and get_mix_provider_nodes panics with
it instead of dropping the entry or returning an error. -/
theorem provider_accessor_panics_on_unparseable_listener
    (parse : String → Option SocketAddr) (t : Wire.Topology)
    (p : Wire.MixProviderPresence) (hmem : p ∈ t.mix_provider_nodes)
    (hbad : parse p.client_listener = none ∨ parse p.mixnet_listener = none) :
    mixProviderPresenceInto parse p = none ∧
    Topology.getMixProviderNodes parse t = none := by
  have hnone : mixProviderPresenceInto parse p = none := by
    unfold mixProviderPresenceInto
    rcases hbad with h | h
    · rw [h]
    · cases hc : parse p.client_listener with
      | none => rfl
      | some c => rw [h]
  refine ⟨hnone, ?_⟩
  unfold Topology.getMixProviderNodes
  revert hmem
  generalize t.mix_provider_nodes = l
  intro hmem
  induction l with
  | nil => cases hmem
  | cons q rest ih =>
    rcases List.mem_cons.mp hmem with h | h
    · subst h
      unfold intoProviderList
      rw [hnone]
    · unfold intoProviderList
      cases hq : mixProviderPresenceInto parse q with
      | none => rfl
      | some n => rw [ih h]; rfl

/-- C10 witness: at a parser that rejects every listener string, the concrete
provider presence makes the accessor panic. -/
theorem provider_accessor_panics_witness :
    mixProviderPresenceInto parseNone provP = none ∧
    Topology.getMixProviderNodes parseNone topoFull = none :=
  provider_accessor_panics_on_unparseable_listener parseNone topoFull provP
    (by decide) (Or.inl rfl)

/-- C9 counterexample: the source maps io::ErrorKind::UnexpectedEof to the distinct
variant TcpListenerUnexpectedEof, not to the per-socket connection-error variant
the claim names. -/
theorem unexpected_eof_not_connection_error :
    providerErrorOfKind IoErrorKind.unexpectedEof = ProviderError.tcpListenerUnexpectedEof ∧
    providerErrorOfKind IoErrorKind.unexpectedEof ≠ ProviderError.tcpListenerConnectionError := by
  decide

/-- C9 amended: connection-refused, connection-reset, connection-aborted and
not-connected map to the per-socket connection-error kind; unexpected-EOF maps to
its own TcpListenerUnexpectedEof kind; address-in-use and address-not-available map
to the fatal bind-error kind. -/
theorem io_error_classification :
    providerErrorOfKind IoErrorKind.connectionRefused = ProviderError.tcpListenerConnectionError ∧
    providerErrorOfKind IoErrorKind.connectionReset = ProviderError.tcpListenerConnectionError ∧
    providerErrorOfKind IoErrorKind.connectionAborted = ProviderError.tcpListenerConnectionError ∧
    providerErrorOfKind IoErrorKind.notConnected = ProviderError.tcpListenerConnectionError ∧
    providerErrorOfKind IoErrorKind.addrInUse = ProviderError.tcpListenerBindingError ∧
    providerErrorOfKind IoErrorKind.addrNotAvailable = ProviderError.tcpListenerBindingError ∧
    providerErrorOfKind IoErrorKind.unexpectedEof = ProviderError.tcpListenerUnexpectedEof := by
  decide

theorem insertToken_not_present (led : ClientLedger) (tok : String) (dst : List Nat)
    (h : hasToken led tok = false) :
    (insertToken led tok dst).1 = led ++ [(tok, dst)] := by
  induction led with
  | nil => rfl
  | cons e rest ih =>
    obtain ⟨t0, d0⟩ := e
    have hsplit : (t0 == tok) = false ∧ hasToken rest tok = false := by
      have : ((t0 == tok) || hasToken rest tok) = false := h
      simpa [hasToken] using this
    unfold insertToken
    rw [if_neg (by simp [hsplit.1])]
    simp [ih hsplit.2]

theorem insertAll_fresh (entries : List (String × List Nat)) (led : ClientLedger)
    (hfresh : ∀ e ∈ entries, hasToken led e.1 = false)
    (hdist : (entries.map Prod.fst).Nodup) :
    insertAll led entries = led ++ entries := by
  induction entries generalizing led with
  | nil => simp [insertAll]
  | cons e rest ih =>
    have hstep : (insertToken led e.1 e.2).1 = led ++ [e] := by
      have := insertToken_not_present led e.1 e.2 (hfresh e (List.mem_cons_self e rest))
      simpa using this
    have hfresh2 : ∀ q ∈ rest, hasToken (led ++ [e]) q.1 = false := by
      intro q hq
      have h1 : hasToken led q.1 = false := hfresh q (List.mem_cons_of_mem e hq)
      have h2 : (e.1 == q.1) = false := by
        have hne : e.1 ≠ q.1 := by
          intro hEq
          have : e.1 ∈ rest.map Prod.fst := hEq ▸ List.mem_map_of_mem Prod.fst hq
          exact (List.nodup_cons.mp (by simpa using hdist)).1 this
        simp [hne]
      simp [hasToken, List.any_append] at h1 ⊢
      exact ⟨h1, fun hEq => by simp [hEq] at h2⟩
    have hdist2 : (rest.map Prod.fst).Nodup :=
      (List.nodup_cons.mp (by simpa using hdist)).2
    calc insertAll led (e :: rest)
        = insertAll (insertToken led e.1 e.2).1 rest := rfl
      _ = insertAll (led ++ [e]) rest := by rw [hstep]
      _ = (led ++ [e]) ++ rest := ih (led ++ [e]) hfresh2 hdist2
      _ = led ++ e :: rest := by simp

/-- C8: after inserting k entries with pairwise-distinct auth tokens into an empty
ClientLedger, current_clients returns exactly k MixProviderClient records, each
whose pub_key is the base64 url-safe encoding of one of the inserted destination
address byte strings. -/
theorem current_clients_after_distinct_inserts (b64url : List Nat → String)
    (entries : List (String × List Nat))
    (hdist : (entries.map Prod.fst).Nodup) :
    (currentClients b64url (insertAll [] entries)).length = entries.length ∧
    ∀ c ∈ currentClients b64url (insertAll [] entries),
      ∃ e ∈ entries, c = { pub_key := b64url e.2 } := by
  have h0 : insertAll [] entries = entries := by
    have := insertAll_fresh entries [] (fun e _ => rfl) hdist
    simpa using this
  rw [h0]
  constructor
  · simp [currentClients]
  · intro c hc
    rcases List.mem_map.mp hc with ⟨e, he, hce⟩
    exact ⟨e, he, hce.symm⟩

/-- C8 witness: two distinct tokens inserted into the empty ledger produce exactly
two client records. -/
theorem current_clients_after_distinct_inserts_witness :
    (currentClients byteCode (insertAll [] entries0)).length = entries0.length :=
  (current_clients_after_distinct_inserts byteCode entries0 (by decide)).1

/-- C1: whenever all_paths fails on the topology (and the call passes the
iterations assert and the provider accessor does not panic), calculate returns the
zero score: the vector with exactly one NodeScore per mix accessor output followed
by one per provider accessor output — coco nodes excluded — each with sent = 0 and
received = 0. -/
theorem calculate_zero_score_on_path_error
    (resolve : String → List SocketAddr) (parse : String → Option SocketAddr)
    (sendOk delivered : List String → Nat → Bool) (t : Wire.Topology)
    (iterations : Nat) (provs : List Model.MixProviderNode)
    (hiter : iterations ≤ 255)
    (hprov : Topology.getMixProviderNodes parse t = some provs)
    (haperr : allPathsFrom (Topology.getMixNodes resolve t) provs = Except.error ()) :
    calculate resolve parse sendOk delivered t iterations =
      Except.ok (zeroScoreList (Topology.getMixNodes resolve t) provs) ∧
    (zeroScoreList (Topology.getMixNodes resolve t) provs).length =
      (Topology.getMixNodes resolve t).length + provs.length ∧
    ∀ s ∈ zeroScoreList (Topology.getMixNodes resolve t) provs,
      s.sent = 0 ∧ s.received = 0 := by
  refine ⟨?_, by simp [zeroScoreList], ?_⟩
  · unfold calculate
    rw [if_neg (by omega), hprov]
    dsimp only
    rw [haperr]
  · intro s hs
    rcases List.mem_append.mp hs with h | h <;>
      rcases List.mem_map.mp h with ⟨x, _, rfl⟩ <;>
      exact ⟨rfl, rfl⟩

/-- C1 witness: the concrete topology with an empty layer 2 makes all_paths fail,
and calculate returns its zero score. -/
theorem calculate_zero_score_on_path_error_witness :
    calculate resolve0 parse0 alwaysOk alwaysOk topoNoLayer2 3 =
      Except.ok (zeroScoreList (Topology.getMixNodes resolve0 topoNoLayer2) [provPModel]) ∧
    (zeroScoreList (Topology.getMixNodes resolve0 topoNoLayer2) [provPModel]).length =
      (Topology.getMixNodes resolve0 topoNoLayer2).length + 1 :=
  ⟨(calculate_zero_score_on_path_error resolve0 parse0 alwaysOk alwaysOk topoNoLayer2 3
      [provPModel] (by omega) (by rfl) (by rfl)).1,
   (calculate_zero_score_on_path_error resolve0 parse0 alwaysOk alwaysOk topoNoLayer2 3
      [provPModel] (by omega) (by rfl) (by rfl)).2.1⟩

/-- C3: calculate has the hard precondition iterations at most 255: every call
within the bound passes the assert (never returns the assertion failure), and every
call with iterations at least 256 fails the assert before touching the topology or
probing any path. -/
theorem calculate_iterations_bound
    (resolve : String → List SocketAddr) (parse : String → Option SocketAddr)
    (sendOk delivered : List String → Nat → Bool) (iterations : Nat) :
    (iterations ≤ 255 → ∀ t : Wire.Topology,
      calculate resolve parse sendOk delivered t iterations ≠
        Except.error CalcPanic.assertionFailed) ∧
    (256 ≤ iterations → ∀ t : Wire.Topology,
      calculate resolve parse sendOk delivered t iterations =
        Except.error CalcPanic.assertionFailed) := by
  constructor
  · intro hle t
    unfold calculate
    rw [if_neg (by omega)]
    split
    · simp
    · split
      · simp
      · split
        · simp
        · split
          · simp
          · simp
  · intro hge t
    unfold calculate
    rw [if_pos (by omega)]

theorem scoreCheck_iff (r : List NodeScore) (threshold : WithTop ℚ) (key : String) :
    scoreCheck r threshold key = true ↔
      ∃ s, nodeScore r key = some s ∧ threshold < (s : WithTop ℚ) := by
  unfold scoreCheck
  cases h : nodeScore r key with
  | none => simp
  | some s => simp

theorem scoreCheck_top (r : List NodeScore) (key : String) :
    scoreCheck r ⊤ key = false := by
  unfold scoreCheck
  cases h : nodeScore r key with
  | none => rfl
  | some s => simp [not_top_lt]

/-- C2: filter_topology_by_score keeps exactly the mix and provider accessor
outputs whose looked-up score is strictly above the threshold (a node whose key is
absent from the score vector is dropped), re-renders them through new_from_nodes,
and carries the coco set through unchanged; with threshold plus infinity the mix
and provider components are empty while the coco set survives. -/
theorem filter_topology_by_score_spec
    (resolve : String → List SocketAddr) (parse : String → Option SocketAddr)
    (r : List NodeScore) (t : Wire.Topology) (threshold : WithTop ℚ)
    (provs : List Model.MixProviderNode)
    (hprov : Topology.getMixProviderNodes parse t = some provs) :
    filterTopologyByScore resolve parse r t threshold =
      some (Topology.newFromNodes
        ((Topology.getMixNodes resolve t).filter
          (fun n => scoreCheck r threshold n.pub_key))
        (provs.filter (fun n => scoreCheck r threshold n.pub_key))
        (Topology.getCocoNodes t)) ∧
    (Topology.newFromNodes
        ((Topology.getMixNodes resolve t).filter
          (fun n => scoreCheck r threshold n.pub_key))
        (provs.filter (fun n => scoreCheck r threshold n.pub_key))
        (Topology.getCocoNodes t)).coco_nodes = t.coco_nodes ∧
    (∀ key : String, scoreCheck r threshold key = true ↔
      ∃ s, nodeScore r key = some s ∧ threshold < (s : WithTop ℚ)) ∧
    (threshold = ⊤ →
      ((Topology.getMixNodes resolve t).filter
          (fun n => scoreCheck r threshold n.pub_key)).map mixNodePresenceFrom = [] ∧
      (provs.filter (fun n => scoreCheck r threshold n.pub_key)).map
          mixProviderPresenceFrom = []) := by
  refine ⟨?_, ?_, fun key => scoreCheck_iff r threshold key, ?_⟩
  · unfold filterTopologyByScore
    rw [hprov]
  · show (Topology.getCocoNodes t).map cocoPresenceFrom = t.coco_nodes
    unfold Topology.getCocoNodes
    exact cocoList_roundtrip t.coco_nodes
  · intro htop
    subst htop
    constructor
    · rw [List.filter_eq_nil_iff.mpr (fun n _ => by simp [scoreCheck_top])]
      rfl
    · rw [List.filter_eq_nil_iff.mpr (fun n _ => by simp [scoreCheck_top])]
      rfl

/-- C2 witness: on the concrete topology, threshold one half keeps exactly the
node scoring 8/10 and drops the unscored nodes, and threshold plus infinity keeps
no mix or provider node while the coco list survives unchanged. -/
theorem filter_topology_by_score_spec_witness :
    filterTopologyByScore resolve0 parse0 scores0 topoFull ((mkRat 1 2 : ℚ) : WithTop ℚ) =
      some (Topology.newFromNodes [mixCModel] []
        (Topology.getCocoNodes topoFull)) ∧
    filterTopologyByScore resolve0 parse0 scores0 topoFull ⊤ =
      some (Topology.newFromNodes [] [] (Topology.getCocoNodes topoFull)) ∧
    (Topology.newFromNodes [] [] (Topology.getCocoNodes topoFull)).coco_nodes =
      topoFull.coco_nodes :=
  ⟨(filter_topology_by_score_spec resolve0 parse0 scores0 topoFull
      ((mkRat 1 2 : ℚ) : WithTop ℚ) [provPModel] rfl).1,
   (filter_topology_by_score_spec resolve0 parse0 scores0 topoFull ⊤
      [provPModel] rfl).1,
   (filter_topology_by_score_spec resolve0 parse0 scores0 topoFull ⊤
      [provPModel] rfl).2.1⟩

theorem bumpReceived_sentProj (m m2 : List (String × NodeScore)) (k : String)
    (h : bumpReceived m k = some m2) : sentProj m2 = sentProj m := by
  induction m generalizing m2 with
  | nil => cases h
  | cons e rest ih =>
    obtain ⟨k0, v0⟩ := e
    unfold bumpReceived at h
    by_cases hk : (k0 == k) = true
    · rw [if_pos hk] at h
      have h2 := Option.some.inj h
      subst h2
      simp [sentProj, NodeScore.increaseReceived]
    · rw [if_neg hk] at h
      cases hr : bumpReceived rest k with
      | none => rw [hr] at h; cases h
      | some m3 =>
        rw [hr] at h
        have h2 := Option.some.inj h
        subst h2
        simp [sentProj] at ih ⊢
        exact ih m3 hr

theorem bumpReceivedPath_sentProj (p : List String) (m m2 : List (String × NodeScore))
    (h : bumpReceivedPath m p = some m2) : sentProj m2 = sentProj m := by
  induction p generalizing m with
  | nil =>
    unfold bumpReceivedPath at h
    have h2 := Option.some.inj h
    rw [h2]
  | cons k ks ih =>
    unfold bumpReceivedPath at h
    cases hb : bumpReceived m k with
    | none => rw [hb] at h; cases h
    | some m3 =>
      rw [hb] at h
      simp only [Option.some_bind] at h
      exact (ih m3 h).trans (bumpReceived_sentProj m m3 k hb)

theorem receivePhase_sentProj (sts : List ((List String × Nat) × PathStatus))
    (m m2 : List (String × NodeScore)) (h : receivePhase m sts = some m2) :
    sentProj m2 = sentProj m := by
  induction sts generalizing m with
  | nil =>
    unfold receivePhase at h
    have h2 := Option.some.inj h
    rw [h2]
  | cons entry rest ih =>
    obtain ⟨⟨p, i⟩, st⟩ := entry
    unfold receivePhase at h
    by_cases hst : st = PathStatus.healthy
    · rw [if_pos hst] at h
      cases hb : bumpReceivedPath m p with
      | none => rw [hb] at h; cases h
      | some m3 =>
        rw [hb] at h
        simp only [Option.some_bind] at h
        exact (ih m3 h).trans (bumpReceivedPath_sentProj p m m3 hb)
    · rw [if_neg hst] at h
      exact ih m h

/-- C4 amended: a path whose send at the ingress socket fails is classified
Malformed immediately, but its send still counts toward sent: the send loop of
calculate increments sent for every node of every path whatever the send outcome,
so the (key, sent) projection of the returned scores is identical to the run in
which every send succeeds; only received reflects send failures. -/
theorem sent_counts_ignore_send_failures
    (resolve : String → List SocketAddr) (parse : String → Option SocketAddr)
    (sendOk delivered : List String → Nat → Bool) (t : Wire.Topology)
    (iterations : Nat) (scores scoresAll : List NodeScore)
    (h1 : calculate resolve parse sendOk delivered t iterations = Except.ok scores)
    (h2 : calculate resolve parse alwaysOk delivered t iterations = Except.ok scoresAll) :
    scores.map (fun s => (s.pub_key, s.sent)) =
      scoresAll.map (fun s => (s.pub_key, s.sent)) ∧
    (∀ p i, sendOk p i = false →
      statusOf sendOk delivered p i = PathStatus.malformed) := by
  refine ⟨?_, fun p i hpi => by simp [statusOf, hpi]⟩
  by_cases hit : 255 < iterations
  · unfold calculate at h1
    rw [if_pos hit] at h1
    cases h1
  · unfold calculate at h1 h2
    rw [if_neg hit] at h1 h2
    cases hp : Topology.getMixProviderNodes parse t with
    | none => rw [hp] at h1; cases h1
    | some provs =>
      rw [hp] at h1 h2
      dsimp only at h1 h2
      cases hap : allPathsFrom (Topology.getMixNodes resolve t) provs with
      | error e =>
        rw [hap] at h1 h2
        have e1 := Except.ok.inj h1
        have e2 := Except.ok.inj h2
        rw [← e1, ← e2]
      | ok paths =>
        rw [hap] at h1 h2
        dsimp only at h1 h2
        cases hsp : sendPhase (initialScoreMap (Topology.getMixNodes resolve t) provs)
            paths iterations with
        | none => rw [hsp] at h1; cases h1
        | some m1 =>
          rw [hsp] at h1 h2
          dsimp only at h1 h2
          cases hr1 : receivePhase m1 (allStatuses sendOk delivered paths iterations) with
          | none => rw [hr1] at h1; cases h1
          | some m2 =>
            rw [hr1] at h1
            cases hr2 : receivePhase m1 (allStatuses alwaysOk delivered paths iterations) with
            | none => rw [hr2] at h2; cases h2
            | some m2b =>
              rw [hr2] at h2
              have e1 := Except.ok.inj h1
              have e2 := Except.ok.inj h2
              rw [← e1, ← e2, List.map_map, List.map_map]
              have q1 := receivePhase_sentProj _ _ _ hr1
              have q2 := receivePhase_sentProj _ _ _ hr2
              have q3 : sentProj m2 = sentProj m2b := q1.trans q2.symm
              simpa [sentProj, Function.comp] using q3

/-- C4 witness for the amended statement: the all-sends-fail run and the
all-sends-succeed run over the concrete topology return identical (key, sent)
projections. -/
theorem sent_counts_ignore_send_failures_witness :
    ([⟨"A", 1, 0⟩, ⟨"B", 1, 0⟩, ⟨"C", 1, 0⟩, ⟨"P", 1, 0⟩] : List NodeScore).map
        (fun s => (s.pub_key, s.sent)) =
      ([⟨"A", 1, 1⟩, ⟨"B", 1, 1⟩, ⟨"C", 1, 1⟩, ⟨"P", 1, 1⟩] : List NodeScore).map
        (fun s => (s.pub_key, s.sent)) :=
  (sent_counts_ignore_send_failures resolve0 parse0 neverOk alwaysOk topoFull 1
    [⟨"A", 1, 0⟩, ⟨"B", 1, 0⟩, ⟨"C", 1, 0⟩, ⟨"P", 1, 0⟩]
    [⟨"A", 1, 1⟩, ⟨"B", 1, 1⟩, ⟨"C", 1, 1⟩, ⟨"P", 1, 1⟩] rfl rfl).1

/-- C4 counterexample: with every ingress send failing, one iteration over the
concrete topology classifies the only path Malformed yet returns sent = 1 for
every node on it; the claim as stated predicts sent = 0. -/
theorem send_failure_still_counts_sent :
    statusOf neverOk alwaysOk ["A", "B", "C", "P"] 0 = PathStatus.malformed ∧
    calculate resolve0 parse0 neverOk alwaysOk topoFull 1 =
      Except.ok [⟨"A", 1, 0⟩, ⟨"B", 1, 0⟩, ⟨"C", 1, 0⟩, ⟨"P", 1, 0⟩] ∧
    ¬ (calculate resolve0 parse0 neverOk alwaysOk topoFull 1 =
      Except.ok [⟨"A", 0, 0⟩, ⟨"B", 0, 0⟩, ⟨"C", 0, 0⟩, ⟨"P", 0, 0⟩]) := by
  refine ⟨rfl, rfl, ?_⟩
  intro h
  have hr : calculate resolve0 parse0 neverOk alwaysOk topoFull 1 =
      Except.ok [⟨"A", 1, 0⟩, ⟨"B", 1, 0⟩, ⟨"C", 1, 0⟩, ⟨"P", 1, 0⟩] := rfl
  rw [hr] at h
  exact absurd (Except.ok.inj h) (by decide)

/-- C3 witness: iterations 256 is rejected by the assert and 255 is accepted. -/
theorem calculate_iterations_bound_witness :
    calculate resolve0 parse0 alwaysOk alwaysOk topoNoLayer2 256 =
      Except.error CalcPanic.assertionFailed ∧
    calculate resolve0 parse0 alwaysOk alwaysOk topoNoLayer2 255 ≠
      Except.error CalcPanic.assertionFailed :=
  ⟨(calculate_iterations_bound resolve0 parse0 alwaysOk alwaysOk 256).2 (by omega) topoNoLayer2,
   (calculate_iterations_bound resolve0 parse0 alwaysOk alwaysOk 255).1 (by omega) topoNoLayer2⟩

end Nym
